import Mathlib

/-!
Verification development for the TrendSpark core: a shallow embedding of the
scoring engine (`trend_spark_ai/ranking.py`), the alert-selection pass and the
scheduler machinery (`trend_spark_ai/scheduler.py`), with theorems checking the
natural-language specification against this embedding.

Conventions: machine floats that only flow through arithmetic comparisons are
modelled as `ℚ`; values produced by transcendental functions (`math.log1p`)
live in `ℝ`.  Timestamps are epoch seconds (`Int`).  Python exceptions of the
pure scoring function are modelled by `Option` (`none` = the call raises).
-/

namespace TrendSpark

/-- Engagement counters and identity of a post, as read by
`ranking.compute_scores_for_post` (DB integer columns). -/
structure Metrics where
  likeCount : Int
  repostCount : Int
  quoteCount : Int
  replyCount : Int
  viewCount : Int
deriving DecidableEq

/-- Python `math.log1p`: defined for arguments `> -1`; raises `ValueError`
(modelled as `none`) otherwise.  There is no clamping. -/
noncomputable def ln1p (x : ℝ) : Option ℝ :=
  if -1 < x then some (Real.log (1 + x)) else none

/-- `ranking._time_decay`: `1 / (1 + age_hours / 24)`.  Python float division
raises `ZeroDivisionError` when the denominator is zero (modelled as `none`). -/
noncomputable def timeDecay (ageHours : ℝ) : Option ℝ :=
  if 1 + ageHours / 24 = 0 then none else some (1 / (1 + ageHours / 24))

/-- `ranking.compute_scores_for_post`: returns `(virality_n, velocity_n)`.
`none` models the `ValueError` / `ZeroDivisionError` raised on degenerate
inputs.  Mirrors the source line by line: weighted `log1p` base, time decay on
velocity only, normalization by the empirical cap 10 and clamping at 1. -/
noncomputable def computeScoresForPost (m : Metrics) (ageHours : ℝ) : Option (ℝ × ℝ) :=
  match ln1p (m.likeCount : ℝ), ln1p ((m.repostCount : ℝ) + (m.quoteCount : ℝ)),
        ln1p (m.replyCount : ℝ), ln1p (m.viewCount : ℝ), timeDecay ageHours with
  | some lLike, some lRepostQuote, some lReply, some lView, some decay =>
      let base := 0.5 * lLike + 0.8 * lRepostQuote + 0.7 * lReply + 0.3 * lView
      let velocity := base * decay
      let virality := 0.4 * lLike + 1.0 * lRepostQuote + 0.9 * lReply + 0.2 * lView
      some (min 1 (virality / 10), min 1 (velocity / 10))
  | _, _, _, _, _ => none

/-- The weighted log-engagement sum feeding the virality score (no decay). -/
noncomputable def viralityBase (m : Metrics) : ℝ :=
  0.4 * Real.log (1 + (m.likeCount : ℝ))
    + 1.0 * Real.log (1 + ((m.repostCount : ℝ) + (m.quoteCount : ℝ)))
    + 0.9 * Real.log (1 + (m.replyCount : ℝ))
    + 0.2 * Real.log (1 + (m.viewCount : ℝ))

/-- The weighted log-engagement sum feeding the velocity score. -/
noncomputable def velocityBase (m : Metrics) : ℝ :=
  0.5 * Real.log (1 + (m.likeCount : ℝ))
    + 0.8 * Real.log (1 + ((m.repostCount : ℝ) + (m.quoteCount : ℝ)))
    + 0.7 * Real.log (1 + (m.replyCount : ℝ))
    + 0.3 * Real.log (1 + (m.viewCount : ℝ))

/-- Normalized virality score on the non-degenerate domain. -/
noncomputable def viralityN (m : Metrics) : ℝ := min 1 (viralityBase m / 10)

/-- Normalized velocity score on the non-degenerate domain. -/
noncomputable def velocityN (m : Metrics) (ageHours : ℝ) : ℝ :=
  min 1 (velocityBase m * (1 / (1 + ageHours / 24)) / 10)

/-! ### Alert selection (`scheduler.job_ingest_and_rank`) -/

/-- Projection of a `Post` row used by the alert-selection pass. -/
structure APost where
  postId : Nat
  created : Option Int
  trending : Bool
  trendingSince : Option Int
  lastAlertedAt : Option Int
  lastAlertedVirality : Option ℚ
  viralityScore : ℚ
  likeCount : Int
  repostCount : Int
  replyCount : Int
deriving DecidableEq

/-- `scheduler._total_engagement`: likes + reposts + replies. -/
def totalEngagement (p : APost) : Int :=
  p.likeCount + p.repostCount + p.replyCount

/-- The dedup threshold `1e-3` of `job_ingest_and_rank`. -/
def alertDedupThreshold : ℚ := 1 / 1000

/-- A post passes every filter of the full-alert loop in `job_ingest_and_rank`:
trending, never alerted (`last_alerted_at` unset), `trending_since` present and
not older than the recency cutoff, and stored `last_alerted_virality` absent or
differing from the current virality by at least `1e-3`. -/
def fullAlertQualifies (cutoff : Int) (p : APost) : Bool :=
  p.trending &&
  p.lastAlertedAt.isNone &&
  (match p.trendingSince with
   | none => false
   | some ts => decide (cutoff ≤ ts)) &&
  (match p.lastAlertedVirality with
   | none => true
   | some s => decide (alertDedupThreshold ≤ |s - p.viralityScore|))

/-- The qualification predicate in the spec's own words: "not yet alerted or
stored `last_alerted_virality` differs from its current virality by ≥ 1e-3".
Stated for refinement comparison against `fullAlertQualifies`. -/
def specAlertQualifies (p : APost) : Bool :=
  p.lastAlertedAt.isNone ||
  (match p.lastAlertedVirality with
   | none => true
   | some s => decide (alertDedupThreshold ≤ |s - p.viralityScore|))

/-- The `_recent_posts` generator filter: `created_at` present and within the
24h lookback, and never alerted. -/
def recentNotAlerted (recentCutoff : Int) (p : APost) : Bool :=
  (match p.created with
   | none => false
   | some c => decide (recentCutoff ≤ c)) &&
  p.lastAlertedAt.isNone

/-- Python `max(iterable, key=..., default=None)`: first element attaining the
maximal key (later elements replace only on strictly larger key). -/
def maxByEngagement (ps : List APost) : Option APost :=
  ps.foldl
    (fun best p =>
      match best with
      | none => some p
      | some b => if totalEngagement b < totalEngagement p then some p else some b)
    none

/-- The alert batch a cycle emits: full, fallback, or nothing. -/
inductive AlertOutcome where
  | full (entries : List APost)
  | fallback (p : APost)
  | noAlert
deriving DecidableEq

/-- The alert batch `job_ingest_and_rank` emits for one cycle, given the
fetched top-N posts, the recency cutoff (`now - alert_recency_minutes`) and the
24h lookback cutoff.  A full batch collects every qualifying post; otherwise
the fallback candidate (highest raw engagement among recent never-alerted
fetched posts) yields a monitoring alert; otherwise nothing is sent. -/
def selectAlert (posts : List APost) (cutoff recentCutoff : Int) : AlertOutcome :=
  if (posts.filter (fullAlertQualifies cutoff)).isEmpty then
    match maxByEngagement (posts.filter (recentNotAlerted recentCutoff)) with
    | some p => .fallback p
    | none => .noAlert
  else .full (posts.filter (fullAlertQualifies cutoff))

/-! ### Trend state machine (`ranking.rank_and_mark`, per-post step) -/

/-- The trending lifecycle fields of one post. -/
structure TrendState where
  trending : Bool
  trendingSince : Option Int
  trendingCandidateSince : Option Int
deriving DecidableEq

/-- Per-post inputs of one `rank_and_mark` pass. -/
structure RankCtx where
  now : Int
  cutoff : Option Int
  expireWindow : Int
  requiredEngagement : Int
  created : Option Int
  engagementTotal : Int
deriving DecidableEq

/-- Expiry test of `rank_and_mark`: an expiry window is configured and the post
has been trending at least that long. -/
def rankExpired (c : RankCtx) (p : TrendState) : Bool :=
  decide (0 < c.expireWindow) &&
  (match p.trendingSince with
   | some t => decide (c.expireWindow ≤ c.now - t)
   | none => false)

/-- `p.trending` after the expiry step. -/
def rankTrending1 (c : RankCtx) (p : TrendState) : Bool :=
  p.trending && !rankExpired c p

/-- Local `ts` after the expiry step. -/
def rankTs1 (c : RankCtx) (p : TrendState) : Option Int :=
  if rankExpired c p then none else p.trendingSince

/-- `engagement_ok`: total engagement meets the adaptive requirement. -/
def rankEngagementOk (c : RankCtx) : Bool :=
  decide (c.requiredEngagement ≤ c.engagementTotal)

/-- `qualifies`: engagement bar met, and not created before the cutoff. -/
def rankQualifies (c : RankCtx) : Bool :=
  rankEngagementOk c &&
  (match c.cutoff, c.created with
   | some cut, some cr => !decide (cr < cut)
   | _, _ => true)

/-- Candidacy timestamp after discarding candidacies predating the cutoff. -/
def rankCand1 (c : RankCtx) (p : TrendState) : Option Int :=
  match c.cutoff, p.trendingCandidateSince with
  | some cut, some ct => if ct < cut then none else some ct
  | _, _ => p.trendingCandidateSince

/-- Candidacy timestamp after starting or clearing candidacy. -/
def rankCand2 (c : RankCtx) (p : TrendState) : Option Int :=
  if rankQualifies c then
    if (rankCand1 c p).isNone && !rankTrending1 c p then some c.now else rankCand1 c p
  else none

/-- `should_trend` before the cutoff suppression: already trending with a valid
start, or an active candidacy meeting the engagement bar. -/
def rankShould1 (c : RankCtx) (p : TrendState) : Bool :=
  (rankTrending1 c p && (rankTs1 c p).isSome) ||
  ((rankCand2 c p).isSome && rankEngagementOk c)

/-- `trend_origin = ts or candidate_ts`. -/
def rankTrendOrigin (c : RankCtx) (p : TrendState) : Option Int :=
  match rankTs1 c p with
  | some t => some t
  | none => rankCand2 c p

/-- `should_trend` after suppressing trend origins predating the cutoff. -/
def rankShould (c : RankCtx) (p : TrendState) : Bool :=
  match c.cutoff, rankTrendOrigin c p with
  | some cut, some t => rankShould1 c p && !decide (t < cut)
  | _, _ => rankShould1 c p

/-- One `rank_and_mark` pass over a single post's trending state (lines
151-203 of `ranking.py`, scores aside). -/
def rankStep (c : RankCtx) (p : TrendState) : TrendState :=
  if rankShould c p then
    { trending := true
      trendingSince :=
        match rankTs1 c p with
        | some t => some t
        | none => some ((rankTrendOrigin c p).getD c.now)
      trendingCandidateSince := none }
  else
    { trending := false
      trendingSince := none
      trendingCandidateSince :=
        if !rankEngagementOk c then none else rankCand2 c p }

/-! ### Lease lock manager (`scheduler._acquire_scheduler_lock` and friends) -/

/-- A `SchedulerLock` row. -/
structure Lease where
  configId : Nat
  lockToken : Nat
  expiresAt : Int
deriving DecidableEq

/-- The `SchedulerConfig` fields the core reads. -/
structure SchedulerConfigRec where
  id : Nat
  jobId : String
  cron : String
  enabled : Bool
  concurrencyLimit : Nat
  lockTimeoutSeconds : Nat
deriving DecidableEq

/-- `scheduler._cleanup_expired_locks`: delete the config's leases whose
`expires_at` has passed. -/
def cleanupExpiredLocks (configId : Nat) (now : Int) (leases : List Lease) : List Lease :=
  leases.filter (fun l => !(decide (l.configId = configId) && decide (l.expiresAt ≤ now)))

/-- Count of the config's still-active leases. -/
def activeLeaseCount (configId : Nat) (now : Int) (leases : List Lease) : Nat :=
  leases.countP (fun l => decide (l.configId = configId) && decide (now < l.expiresAt))

/-- `max(1, config.concurrency_limit or 1)`. -/
def effectiveLimit (cfg : SchedulerConfigRec) : Nat :=
  max 1 (if cfg.concurrencyLimit = 0 then 1 else cfg.concurrencyLimit)

/-- `max(10, config.lock_timeout_seconds or 300)`. -/
def effectiveTimeout (cfg : SchedulerConfigRec) : Nat :=
  max 10 (if cfg.lockTimeoutSeconds = 0 then 300 else cfg.lockTimeoutSeconds)

/-- `scheduler._acquire_scheduler_lock`: purge expired leases, count the
remaining active ones, refuse at the limit, otherwise insert a fresh lease expiring at
`now + timeout`.  Returns the token granted (if any) and the resulting lease
table. -/
def acquireSchedulerLock (cfg : SchedulerConfigRec) (token : Nat) (now : Int)
    (leases : List Lease) : Option Nat × List Lease :=
  if effectiveLimit cfg
      ≤ activeLeaseCount cfg.id now (cleanupExpiredLocks cfg.id now leases) then
    (none, cleanupExpiredLocks cfg.id now leases)
  else
    (some token,
      cleanupExpiredLocks cfg.id now leases
        ++ [⟨cfg.id, token, now + (effectiveTimeout cfg : Int)⟩])

/-- `scheduler._release_scheduler_lock`: delete the lease matching both the
config id and the token (a no-op when already purged). -/
def releaseSchedulerLock (configId : Nat) (token : Nat) (leases : List Lease) : List Lease :=
  leases.filter (fun l => !(decide (l.configId = configId) && decide (l.lockToken = token)))

/-! ### Failure monitor (`scheduler._track_job_result`) -/

/-- `JOB_FAILURE_THRESHOLD`. -/
def jobFailureThreshold : Nat := 3

/-- `JOB_FAILURE_ALERT_COOLDOWN` (30 minutes), in seconds. -/
def jobFailureAlertCooldown : Int := 1800

/-- First-match association lookup. -/
def getAssoc {α : Type} : List (String × α) → String → Option α
  | [], _ => none
  | e :: rest, k => if e.1 = k then some e.2 else getAssoc rest k

/-- First-match association update (append when the key is new). -/
def setAssoc {α : Type} : List (String × α) → String → α → List (String × α)
  | [], k, v => [(k, v)]
  | e :: rest, k, v => if e.1 = k then (k, v) :: rest else e :: setAssoc rest k v

/-- The module-level failure-monitor state: `_job_failure_counts` (a
`defaultdict(int)`) and `_job_failure_last_alert`. -/
structure FailureMonitorState where
  failureCounts : List (String × Nat)
  lastAlertAt : List (String × Int)
deriving DecidableEq

/-- `scheduler._track_job_result`: on an error outcome increment the job's
consecutive-failure counter and, at the threshold and outside the cooldown,
emit one escalation (returned boolean) and record its time; on any other
outcome reset the counter. -/
def trackJobResult (st : FailureMonitorState) (jobId : String) (status : String)
    (now : Int) : FailureMonitorState × Bool :=
  if status = "error" then
    if jobFailureThreshold ≤ (getAssoc st.failureCounts jobId).getD 0 + 1 then
      match getAssoc st.lastAlertAt jobId with
      | none =>
          (⟨setAssoc st.failureCounts jobId ((getAssoc st.failureCounts jobId).getD 0 + 1),
            setAssoc st.lastAlertAt jobId now⟩, true)
      | some last =>
          if jobFailureAlertCooldown ≤ now - last then
            (⟨setAssoc st.failureCounts jobId ((getAssoc st.failureCounts jobId).getD 0 + 1),
              setAssoc st.lastAlertAt jobId now⟩, true)
          else
            (⟨setAssoc st.failureCounts jobId ((getAssoc st.failureCounts jobId).getD 0 + 1),
              st.lastAlertAt⟩, false)
    else
      (⟨setAssoc st.failureCounts jobId ((getAssoc st.failureCounts jobId).getD 0 + 1),
        st.lastAlertAt⟩, false)
  else (⟨setAssoc st.failureCounts jobId 0, st.lastAlertAt⟩, false)

/-- Fold `_track_job_result` over `(status, time)` run outcomes, threading the
monitor state and the number of escalation alerts emitted so far. -/
def trackFold (jobId : String) (events : List (String × Int))
    (acc : FailureMonitorState × Nat) : FailureMonitorState × Nat :=
  events.foldl
    (fun acc ev =>
      ((trackJobResult acc.1 jobId ev.1 ev.2).1,
        acc.2 + if (trackJobResult acc.1 jobId ev.1 ev.2).2 then 1 else 0))
    acc

/-- The monitor state and total number of escalation alerts after a sequence
of recorded run outcomes. -/
def runOutcomes (jobId : String) (st : FailureMonitorState)
    (events : List (String × Int)) : FailureMonitorState × Nat :=
  trackFold jobId events (st, 0)

/-! ### Configured job execution (`scheduler._execute_configured_job`) -/

/-- The fixed `JOB_HANDLERS` registry keys. -/
def jobHandlerIds : List String := ["ingest_rank", "gen_replies", "daily_ideas"]

/-- A `JobRun` audit row (timing and correlation fields elided). -/
structure JobRunRec where
  jobId : String
  configId : Nat
  status : String
  detail : Option String
deriving DecidableEq

/-- The store state `_execute_configured_job` touches. -/
structure ExecState where
  leases : List Lease
  jobRuns : List JobRunRec
  monitor : FailureMonitorState
deriving DecidableEq

/-- The JobRun status string an execution records for a handler outcome. -/
def handlerStatus : Except String Unit → String
  | .ok _ => "success"
  | .error _ => "error"

/-- The JobRun failure detail (`str(exc)`) for a handler outcome. -/
def handlerDetail : Except String Unit → Option String
  | .ok _ => none
  | .error e => some e

/-- `scheduler._execute_configured_job`, from config fetch through the
`finally` block.  The handler's outcome is supplied as `Except` (external
effects are elided); the returned `Option String` is the exception re-raised
to the trigger framework after recording. -/
def executeConfiguredJob (cfg : SchedulerConfigRec) (token : Nat) (now : Int)
    (handler : Except String Unit) (st : ExecState) : ExecState × Option String :=
  if !cfg.enabled then (st, none)
  else if !(jobHandlerIds.contains cfg.jobId) then (st, none)
  else
    match acquireSchedulerLock cfg token now st.leases with
    | (none, leases1) => ({ st with leases := leases1 }, none)
    | (some tok, leases1) =>
        (⟨releaseSchedulerLock cfg.id tok leases1,
          st.jobRuns ++
            [⟨cfg.jobId, cfg.id, handlerStatus handler, handlerDetail handler⟩],
          (trackJobResult st.monitor cfg.jobId (handlerStatus handler) now).1⟩,
          handlerDetail handler)

/-! ### Config writes and cron validation -/

/-- Count of maximal nonempty runs of non-space characters. -/
def countFields (cs : List Char) : Nat :=
  (cs.foldl
    (fun (acc : Nat × Bool) c =>
      if c = ' ' then (acc.1, false)
      else if acc.2 then acc else (acc.1 + 1, true))
    (0, false)).1

/-- Modelled from the spec: the cron parser (`apscheduler
CronTrigger.from_crontab`) is an external dependency absent from this
repository; the spec requires standard 5-field syntax, modelled as exactly
five whitespace-separated fields. -/
def validCron (cron : String) : Bool :=
  decide (countFields cron.toList = 5)

/-- `scheduler.create_scheduler_config`: rejects unknown job kinds, then
persists the row as given.  The cron string is persisted unchecked. -/
def createSchedulerConfig (id : Nat) (jobId : String) (cron : String)
    (enabled : Bool) (concurrencyLimit : Nat) (lockTimeoutSeconds : Nat) :
    Except String SchedulerConfigRec :=
  if jobHandlerIds.contains jobId then
    Except.ok ⟨id, jobId, cron, enabled, concurrencyLimit, lockTimeoutSeconds⟩
  else Except.error "Unknown job_id"

/-- `worker_app.SchedulerConfigCreate` field validators: the HTTP request
model rejects unknown job kinds and malformed cron expressions before
`create_scheduler_config` is reached. -/
def apiValidateSchedulerConfigCreate (jobId : String) (cron : String) :
    Except String Unit :=
  if !(jobHandlerIds.contains jobId) then Except.error "Unknown job_id"
  else if !(validCron cron) then Except.error "Invalid cron expression"
  else Except.ok ()

/-- `scheduler.refresh_scheduler_jobs`: a trigger is registered for a config
only when it is enabled and its cron parses; an invalid cron is logged and the
config skipped (but left persisted as is). -/
def registersTrigger (cfg : SchedulerConfigRec) : Bool :=
  cfg.enabled && validCron cfg.cron

/-- One folding step of Python `max(key=total_engagement)`. -/
def maxStep (best : Option APost) (p : APost) : Option APost :=
  match best with
  | none => some p
  | some b => if totalEngagement b < totalEngagement p then some p else some b

end TrendSpark

namespace TrendSpark

theorem maxByEngagement_eq_fold (ps : List APost) :
    maxByEngagement ps = ps.foldl maxStep none := rfl

theorem maxStep_ne_none (b : Option APost) (a : APost) : maxStep b a ≠ none := by
  cases b with
  | none => simp [maxStep]
  | some r =>
    simp only [maxStep]
    split <;> simp

theorem maxStep_some (b : Option APost) (a p : APost) (h : maxStep b a = some p) :
    (b = some p ∨ p = a)
      ∧ totalEngagement a ≤ totalEngagement p
      ∧ ∀ r, b = some r → totalEngagement r ≤ totalEngagement p := by
  cases b with
  | none =>
    simp only [maxStep] at h
    cases h
    exact ⟨Or.inr rfl, le_refl _, by simp⟩
  | some r =>
    simp only [maxStep] at h
    by_cases hlt : totalEngagement r < totalEngagement a
    · rw [if_pos hlt] at h
      cases h
      exact ⟨Or.inr rfl, le_refl _, fun s hs => by cases hs; exact le_of_lt hlt⟩
    · rw [if_neg hlt] at h
      cases h
      exact ⟨Or.inl rfl, le_of_not_lt hlt, fun s hs => by cases hs; exact le_refl _⟩

theorem maxStep_fold_spec (l : List APost) : ∀ (b : Option APost) (p : APost),
    l.foldl maxStep b = some p →
    (b = some p ∨ p ∈ l)
      ∧ (∀ q, b = some q → totalEngagement q ≤ totalEngagement p)
      ∧ (∀ q ∈ l, totalEngagement q ≤ totalEngagement p) := by
  induction l with
  | nil =>
    intro b p h
    simp only [List.foldl_nil] at h
    refine ⟨Or.inl h, fun q hq => ?_, by simp⟩
    rw [h] at hq
    cases hq
    exact le_refl _
  | cons a l ih =>
    intro b p h
    rw [List.foldl_cons] at h
    obtain ⟨hmem, hacc, hrest⟩ := ih (maxStep b a) p h
    obtain ⟨s, hs⟩ : ∃ s, maxStep b a = some s := by
      cases hms : maxStep b a with
      | none => exact absurd hms (maxStep_ne_none b a)
      | some s => exact ⟨s, rfl⟩
    obtain ⟨hbs, has, hrs⟩ := maxStep_some b a s hs
    have hsp : totalEngagement s ≤ totalEngagement p := hacc s hs
    refine ⟨?_, ?_, ?_⟩
    · rcases hmem with hc | hm
      · have hspq : s = p := by
          rw [hs] at hc
          exact Option.some.inj hc
        subst hspq
        rcases hbs with hb | hba
        · exact Or.inl hb
        · rw [hba]
          exact Or.inr (List.mem_cons_self a l)
      · exact Or.inr (List.mem_cons_of_mem _ hm)
    · intro q hq
      exact le_trans (hrs q hq) hsp
    · intro q hq
      rcases List.mem_cons.mp hq with rfl | hql
      · exact le_trans has hsp
      · exact hrest q hql

theorem maxByEngagement_none_iff (l : List APost) :
    maxByEngagement l = none ↔ l = [] := by
  constructor
  · intro h
    cases l with
    | nil => rfl
    | cons a t =>
      exfalso
      rw [maxByEngagement_eq_fold, List.foldl_cons] at h
      have : ∀ (t : List APost) (p : APost), t.foldl maxStep (some p) ≠ none := by
        intro t
        induction t with
        | nil => intro p hc; cases hc
        | cons b t ih =>
          intro p hc
          rw [List.foldl_cons] at hc
          simp only [maxStep] at hc
          split at hc
          · exact ih _ hc
          · exact ih _ hc
      exact this t a h
  · intro h; subst h; rfl

theorem maxByEngagement_spec (l : List APost) (p : APost)
    (h : maxByEngagement l = some p) :
    p ∈ l ∧ ∀ q ∈ l, totalEngagement q ≤ totalEngagement p := by
  rw [maxByEngagement_eq_fold] at h
  obtain ⟨hmem, _, hmax⟩ := maxStep_fold_spec l none p h
  rcases hmem with hc | hm
  · cases hc
  · exact ⟨hm, hmax⟩

/-- C9: after the per-post step of `rank_and_mark`, `trending_since` is
non-null iff the `trending` flag is true, and the candidacy timestamp is
cleared whenever the post is confirmed trending or no longer qualifies. -/
theorem C9_trending_invariants (c : RankCtx) (p : TrendState) :
    ((rankStep c p).trending = true ↔ (rankStep c p).trendingSince ≠ none)
      ∧ ((rankStep c p).trending = true → (rankStep c p).trendingCandidateSince = none)
      ∧ (rankQualifies c = false → (rankStep c p).trendingCandidateSince = none) := by
  unfold rankStep
  by_cases h : rankShould c p
  · rw [if_pos h]
    refine ⟨?_, fun _ => rfl, fun _ => rfl⟩
    cases hts : rankTs1 c p <;> simp
  · rw [if_neg h]
    refine ⟨by simp, by simp, fun hq => ?_⟩
    simp only [rankCand2, hq, Bool.false_eq_true, if_false]
    split <;> rfl

/-- Witness for C9 at a concrete context and post. -/
theorem C9_trending_invariants_witness :
    ((rankStep ⟨100, some 40, 3600, 5, some 50, 2⟩ ⟨false, none, some 60⟩).trendingCandidateSince
        = none)
      ∧ ((rankStep ⟨100, some 40, 3600, 5, some 50, 2⟩ ⟨false, none, some 60⟩).trending = true ↔
          (rankStep ⟨100, some 40, 3600, 5, some 50, 2⟩ ⟨false, none, some 60⟩).trendingSince ≠ none) :=
  ⟨(C9_trending_invariants ⟨100, some 40, 3600, 5, some 50, 2⟩ ⟨false, none, some 60⟩).2.2
      (by decide),
    (C9_trending_invariants ⟨100, some 40, 3600, 5, some 50, 2⟩ ⟨false, none, some 60⟩).1⟩

/-- C10: a post that is neither a candidate nor trending, meets its required
engagement bar and is inside the recency cutoff (when one is set) leaves the
same cycle trending, with `trending_since` set to the cycle's timestamp: the
candidate state imposes no multi-cycle delay. -/
theorem C10_immediate_promotion (c : RankCtx) (p : TrendState)
    (hT : p.trending = false) (hS : p.trendingSince = none)
    (hC : p.trendingCandidateSince = none)
    (hE : c.requiredEngagement ≤ c.engagementTotal)
    (hcutNow : ∀ cut, c.cutoff = some cut → cut ≤ c.now)
    (hcutCreated : ∀ cut cr, c.cutoff = some cut → c.created = some cr → ¬ cr < cut) :
    rankStep c p = ⟨true, some c.now, none⟩ := by
  have hExp : rankExpired c p = false := by simp [rankExpired, hS]
  have hTr1 : rankTrending1 c p = false := by simp [rankTrending1, hT]
  have hTs1 : rankTs1 c p = none := by simp [rankTs1, hS, hExp]
  have hEok : rankEngagementOk c = true := by simp [rankEngagementOk, hE]
  have hQ : rankQualifies c = true := by
    unfold rankQualifies
    rw [hEok, Bool.true_and]
    cases hc1 : c.cutoff with
    | none => rfl
    | some cut =>
      cases hc2 : c.created with
      | none => rfl
      | some cr => simp [hcutCreated cut cr hc1 hc2]
  have hC1 : rankCand1 c p = none := by
    unfold rankCand1
    cases c.cutoff <;> simp [hC]
  have hC2 : rankCand2 c p = some c.now := by
    simp [rankCand2, hQ, hC1, hTr1]
  have hSh1 : rankShould1 c p = true := by
    simp [rankShould1, hC2, hEok]
  have hTO : rankTrendOrigin c p = some c.now := by
    simp [rankTrendOrigin, hTs1, hC2]
  have hSh : rankShould c p = true := by
    unfold rankShould
    rw [hTO]
    cases hc1 : c.cutoff with
    | none => exact hSh1
    | some cut =>
      have : ¬ c.now < cut := not_lt.mpr (hcutNow cut hc1)
      simp [hSh1, this]
  unfold rankStep
  rw [if_pos hSh, hTs1, hTO]
  rfl

/-- Witness for C10 at a concrete context and post. -/
theorem C10_immediate_promotion_witness :
    rankStep ⟨100, some 40, 3600, 5, some 50, 7⟩ ⟨false, none, none⟩ = ⟨true, some 100, none⟩ :=
  C10_immediate_promotion ⟨100, some 40, 3600, 5, some 50, 7⟩ ⟨false, none, none⟩
    rfl rfl rfl (by decide)
    (fun cut h => by
      have h2 : some (40 : Int) = some cut := h
      cases h2
      decide)
    (fun cut cr h1 h2 => by
      have h3 : some (40 : Int) = some cut := h1
      have h4 : some (50 : Int) = some cr := h2
      cases h3
      cases h4
      decide)

/-- C1 (counterexample): a trending, recent post that was alerted before and
whose virality has since changed by far more than the 1e-3 threshold is still
skipped — `job_ingest_and_rank` drops every post with `last_alerted_at` set
before the virality-delta check, so the claim's "not yet alerted OR changed by
≥ 1e-3" qualification does not hold. -/
theorem C1_alert_dedup_cex :
    specAlertQualifies ⟨1, some 0, true, some 100, some 50, some 0, 1, 1, 0, 0⟩ = true
      ∧ fullAlertQualifies 0 ⟨1, some 0, true, some 100, some 50, some 0, 1, 1, 0, 0⟩ = false
      ∧ alertDedupThreshold ≤ |(0 : ℚ) - 1| := by
  refine ⟨?_, ?_, ?_⟩
  · simp only [specAlertQualifies, alertDedupThreshold]
    norm_num
  · simp only [fullAlertQualifies]
    norm_num
  · rw [show |(0 : ℚ) - 1| = 1 by norm_num]
    norm_num [alertDedupThreshold]

/-- C1 (amended): a fetched post qualifies for a full alert iff it is
trending, has never been alerted (`last_alerted_at` unset), its
`trending_since` is set and within the recency cutoff, and its stored
`last_alerted_virality` is absent or differs from the current virality by at
least 1e-3.  In particular a previously-alerted post is never re-alerted,
whatever its virality change, and an unchanged-virality post is never
re-alerted. -/
theorem C1_alert_dedup_amended (cutoff : Int) (p : APost) :
    (fullAlertQualifies cutoff p = true ↔
        (p.trending = true ∧ p.lastAlertedAt = none ∧
          (∃ ts, p.trendingSince = some ts ∧ cutoff ≤ ts) ∧
          (∀ s, p.lastAlertedVirality = some s →
            alertDedupThreshold ≤ |s - p.viralityScore|)))
      ∧ (p.lastAlertedAt ≠ none → fullAlertQualifies cutoff p = false)
      ∧ (∀ s, p.lastAlertedVirality = some s →
          |s - p.viralityScore| < alertDedupThreshold →
          fullAlertQualifies cutoff p = false) := by
  unfold fullAlertQualifies
  cases hts : p.trendingSince <;> cases hlv : p.lastAlertedVirality <;>
    cases hla : p.lastAlertedAt <;> cases htr : p.trending <;>
      (simp [hts, hlv, hla, htr, not_le]; try tauto)

/-- C5 (counterexample): a cycle in which the sole fetched post is not
trending and was already alerted emits neither a full nor a fallback batch,
so a non-empty signal is not guaranteed on every cycle. -/
theorem C5_alert_batch_cex :
    selectAlert [⟨1, some 100, false, none, some 50, some 0, 0, 3, 0, 0⟩] 0 0
      = AlertOutcome.noAlert := by
  decide

/-- C5 (amended): each cycle emits at most one batch, never both: a full batch
collecting exactly the qualifying posts when at least one qualifies; otherwise
a fallback alert for the highest-raw-engagement recent never-alerted post among
the fetched top-N posts, when one exists; otherwise no alert at all. -/
theorem C5_alert_batch_amended (posts : List APost) (cutoff recentCutoff : Int) :
    (posts.filter (fullAlertQualifies cutoff) ≠ [] →
        selectAlert posts cutoff recentCutoff
          = AlertOutcome.full (posts.filter (fullAlertQualifies cutoff)))
      ∧ (posts.filter (fullAlertQualifies cutoff) = [] →
          ∀ entries, selectAlert posts cutoff recentCutoff ≠ AlertOutcome.full entries)
      ∧ (∀ p, selectAlert posts cutoff recentCutoff = AlertOutcome.fallback p →
          posts.filter (fullAlertQualifies cutoff) = [] ∧
            p ∈ posts ∧ recentNotAlerted recentCutoff p = true ∧
            ∀ q ∈ posts, recentNotAlerted recentCutoff q = true →
              totalEngagement q ≤ totalEngagement p)
      ∧ (selectAlert posts cutoff recentCutoff = AlertOutcome.noAlert ↔
          posts.filter (fullAlertQualifies cutoff) = [] ∧
            posts.filter (recentNotAlerted recentCutoff) = []) := by
  refine ⟨?_, ?_, ?_, ?_⟩
  · intro hne
    unfold selectAlert
    rw [if_neg fun hc => hne (List.isEmpty_iff.mp hc)]
  · intro hnil entries
    unfold selectAlert
    rw [if_pos (List.isEmpty_iff.mpr hnil)]
    cases hF : maxByEngagement (posts.filter (recentNotAlerted recentCutoff)) with
    | none => intro hc; cases hc
    | some q => intro hc; cases hc
  · intro p hp
    unfold selectAlert at hp
    by_cases hE : (posts.filter (fullAlertQualifies cutoff)).isEmpty
    · rw [if_pos hE] at hp
      cases hF : maxByEngagement (posts.filter (recentNotAlerted recentCutoff)) with
      | none => rw [hF] at hp; cases hp
      | some q =>
        rw [hF] at hp
        have hqp : q = p := by cases hp; rfl
        subst hqp
        obtain ⟨hmem, hmax⟩ := maxByEngagement_spec _ _ hF
        refine ⟨List.isEmpty_iff.mp hE, (List.mem_filter.mp hmem).1,
          (List.mem_filter.mp hmem).2, ?_⟩
        intro r hr hrpred
        exact hmax r (List.mem_filter.mpr ⟨hr, hrpred⟩)
    · rw [if_neg hE] at hp
      cases hp
  · constructor
    · intro h
      unfold selectAlert at h
      by_cases hE : (posts.filter (fullAlertQualifies cutoff)).isEmpty
      · rw [if_pos hE] at h
        cases hF : maxByEngagement (posts.filter (recentNotAlerted recentCutoff)) with
        | none => exact ⟨List.isEmpty_iff.mp hE, (maxByEngagement_none_iff _).mp hF⟩
        | some q => rw [hF] at h; cases h
      · rw [if_neg hE] at h
        cases h
    · rintro ⟨h1, h2⟩
      unfold selectAlert
      rw [if_pos (List.isEmpty_iff.mpr h1), h2]
      rfl

/-- C6 (counterexample): `create_scheduler_config` persists a config with a
malformed cron string as enabled, rejecting nothing — cron is not validated in
the config-write functions of the scheduler module. -/
theorem C6_cron_validation_cex :
    createSchedulerConfig 1 "ingest_rank" "not-a-cron" true 1 300
        = Except.ok ⟨1, "ingest_rank", "not-a-cron", true, 1, 300⟩
      ∧ validCron "not-a-cron" = false := by
  exact ⟨rfl, by decide⟩

/-- C6 (amended): cron validation happens in the HTTP request models
(`worker_app`), not in `create_scheduler_config` / `update_scheduler_config`:
the API-side validator rejects every malformed cron, while a direct call to
`create_scheduler_config` persists the config unchecked (as enabled when
requested); `refresh_scheduler_jobs` then merely skips registering a trigger
for the invalid cron. -/
theorem C6_cron_validation_amended (id : Nat) (jobId cron : String) (enabled : Bool)
    (cl lts : Nat) :
    (validCron cron = false →
        ∀ u, apiValidateSchedulerConfigCreate jobId cron ≠ Except.ok u)
      ∧ (jobHandlerIds.contains jobId = true →
          createSchedulerConfig id jobId cron enabled cl lts
            = Except.ok ⟨id, jobId, cron, enabled, cl, lts⟩)
      ∧ (validCron cron = false →
          registersTrigger ⟨id, jobId, cron, enabled, cl, lts⟩ = false) := by
  refine ⟨?_, ?_, ?_⟩
  · intro hbad u
    unfold apiValidateSchedulerConfigCreate
    cases hj : jobHandlerIds.contains jobId <;> simp [hbad]
  · intro hj
    unfold createSchedulerConfig
    rw [hj]
    rfl
  · intro hbad
    simp [registersTrigger, hbad]

/-- Witness for C6 (amended) at a concrete malformed cron. -/
theorem C6_cron_validation_amended_witness :
    (∀ u, apiValidateSchedulerConfigCreate "ingest_rank" "bad" ≠ Except.ok u)
      ∧ createSchedulerConfig 2 "ingest_rank" "bad" true 1 300
          = Except.ok ⟨2, "ingest_rank", "bad", true, 1, 300⟩ :=
  ⟨(C6_cron_validation_amended 2 "ingest_rank" "bad" true 1 300).1 (by decide),
    (C6_cron_validation_amended 2 "ingest_rank" "bad" true 1 300).2.1 (by decide)⟩

/-- Witness for C1 (amended): a concrete previously-alerted post never
re-qualifies. -/
theorem C1_alert_dedup_amended_witness :
    fullAlertQualifies 0 ⟨2, some 10, true, some 5, some 3, none, 0, 0, 0, 0⟩ = false :=
  (C1_alert_dedup_amended 0 ⟨2, some 10, true, some 5, some 3, none, 0, 0, 0, 0⟩).2.1
    (by simp)

/-- Witness for C5 (amended): a cycle with one qualifying post emits the full
batch. -/
theorem C5_alert_batch_amended_witness :
    selectAlert [⟨3, some 10, true, some 2, none, none, 0, 1, 0, 0⟩] 0 0
      = AlertOutcome.full [⟨3, some 10, true, some 2, none, none, 0, 1, 0, 0⟩] := by
  have h :=
    (C5_alert_batch_amended [⟨3, some 10, true, some 2, none, none, 0, 1, 0, 0⟩] 0 0).1
      (by decide)
  exact h.trans (by decide)

theorem computeScoresForPost_eq (m : Metrics) (age : ℝ)
    (h1 : 0 ≤ m.likeCount) (h2 : 0 ≤ m.repostCount) (h3 : 0 ≤ m.quoteCount)
    (h4 : 0 ≤ m.replyCount) (h5 : 0 ≤ m.viewCount) (hd : 1 + age / 24 ≠ 0) :
    computeScoresForPost m age = some (viralityN m, velocityN m age) := by
  have c1 : (0 : ℝ) ≤ (m.likeCount : ℝ) := by exact_mod_cast h1
  have c2 : (0 : ℝ) ≤ (m.repostCount : ℝ) := by exact_mod_cast h2
  have c3 : (0 : ℝ) ≤ (m.quoteCount : ℝ) := by exact_mod_cast h3
  have c4 : (0 : ℝ) ≤ (m.replyCount : ℝ) := by exact_mod_cast h4
  have c5 : (0 : ℝ) ≤ (m.viewCount : ℝ) := by exact_mod_cast h5
  unfold computeScoresForPost ln1p timeDecay
  rw [if_pos (by linarith : (-1 : ℝ) < (m.likeCount : ℝ)),
      if_pos (by linarith : (-1 : ℝ) < (m.repostCount : ℝ) + (m.quoteCount : ℝ)),
      if_pos (by linarith : (-1 : ℝ) < (m.replyCount : ℝ)),
      if_pos (by linarith : (-1 : ℝ) < (m.viewCount : ℝ)),
      if_neg hd]
  rfl

theorem velocityBase_nonneg (m : Metrics)
    (h1 : 0 ≤ m.likeCount) (h2 : 0 ≤ m.repostCount) (h3 : 0 ≤ m.quoteCount)
    (h4 : 0 ≤ m.replyCount) (h5 : 0 ≤ m.viewCount) :
    0 ≤ velocityBase m := by
  have c1 : (0 : ℝ) ≤ (m.likeCount : ℝ) := by exact_mod_cast h1
  have c2 : (0 : ℝ) ≤ (m.repostCount : ℝ) := by exact_mod_cast h2
  have c3 : (0 : ℝ) ≤ (m.quoteCount : ℝ) := by exact_mod_cast h3
  have c4 : (0 : ℝ) ≤ (m.replyCount : ℝ) := by exact_mod_cast h4
  have c5 : (0 : ℝ) ≤ (m.viewCount : ℝ) := by exact_mod_cast h5
  have l1 : 0 ≤ Real.log (1 + (m.likeCount : ℝ)) := Real.log_nonneg (by linarith)
  have l2 : 0 ≤ Real.log (1 + ((m.repostCount : ℝ) + (m.quoteCount : ℝ))) :=
    Real.log_nonneg (by linarith)
  have l3 : 0 ≤ Real.log (1 + (m.replyCount : ℝ)) := Real.log_nonneg (by linarith)
  have l4 : 0 ≤ Real.log (1 + (m.viewCount : ℝ)) := Real.log_nonneg (by linarith)
  unfold velocityBase
  linarith

/-- C2 (counterexample): with all-zero (hence non-negative) engagement
counters the velocity score is 0 at age 0h and still 0 at age 48h, so the
velocity score does not strictly decrease with age for every post with
non-negative counters. -/
theorem C2_score_age_cex :
    computeScoresForPost ⟨0, 0, 0, 0, 0⟩ 0 = some (0, 0)
      ∧ computeScoresForPost ⟨0, 0, 0, 0, 0⟩ 48 = some (0, 0) := by
  have e1 := computeScoresForPost_eq ⟨0, 0, 0, 0, 0⟩ 0
    (le_refl 0) (le_refl 0) (le_refl 0) (le_refl 0) (le_refl 0) (by norm_num)
  have e2 := computeScoresForPost_eq ⟨0, 0, 0, 0, 0⟩ 48
    (le_refl 0) (le_refl 0) (le_refl 0) (le_refl 0) (le_refl 0) (by norm_num)
  rw [e1, e2]
  norm_num [viralityN, velocityN, viralityBase, velocityBase, Real.log_one]

/-- C2 (amended): on non-negative counters the scores are defined, the
virality component is invariant to the post's age, and the velocity component
is antitone in age — strictly decreasing whenever the weighted log-engagement
base is positive and the younger-age raw velocity does not exceed the
normalization cap. -/
theorem C2_score_age_amended (m : Metrics) (a1 a2 : ℝ)
    (h1 : 0 ≤ m.likeCount) (h2 : 0 ≤ m.repostCount) (h3 : 0 ≤ m.quoteCount)
    (h4 : 0 ≤ m.replyCount) (h5 : 0 ≤ m.viewCount)
    (ha1 : 0 ≤ a1) (ha12 : a1 < a2) :
    computeScoresForPost m a1 = some (viralityN m, velocityN m a1)
      ∧ computeScoresForPost m a2 = some (viralityN m, velocityN m a2)
      ∧ Option.map Prod.fst (computeScoresForPost m a1)
          = Option.map Prod.fst (computeScoresForPost m a2)
      ∧ velocityN m a2 ≤ velocityN m a1
      ∧ (0 < velocityBase m → velocityBase m * (1 / (1 + a1 / 24)) ≤ 10 →
          velocityN m a2 < velocityN m a1) := by
  have hd1 : (0 : ℝ) < 1 + a1 / 24 := by linarith
  have hd2 : (0 : ℝ) < 1 + a2 / 24 := by linarith
  have he1 := computeScoresForPost_eq m a1 h1 h2 h3 h4 h5 hd1.ne'
  have he2 := computeScoresForPost_eq m a2 h1 h2 h3 h4 h5 hd2.ne'
  have hdec : 1 / (1 + a2 / 24) < 1 / (1 + a1 / 24) :=
    one_div_lt_one_div_of_lt hd1 (by linarith)
  have hvb := velocityBase_nonneg m h1 h2 h3 h4 h5
  refine ⟨he1, he2, by rw [he1, he2]; rfl, ?_, ?_⟩
  · unfold velocityN
    have hmul : velocityBase m * (1 / (1 + a2 / 24))
        ≤ velocityBase m * (1 / (1 + a1 / 24)) :=
      mul_le_mul_of_nonneg_left (le_of_lt hdec) hvb
    exact min_le_min (le_refl 1) (by linarith)
  · intro hpos hcap
    have hlt : velocityBase m * (1 / (1 + a2 / 24))
        < velocityBase m * (1 / (1 + a1 / 24)) :=
      mul_lt_mul_of_pos_left hdec hpos
    unfold velocityN
    rw [min_eq_right (by linarith : velocityBase m * (1 / (1 + a1 / 24)) / 10 ≤ 1),
        min_eq_right (by linarith : velocityBase m * (1 / (1 + a2 / 24)) / 10 ≤ 1)]
    linarith

/-- Witness for C2 (amended): one like, ages 0h vs 24h — virality defined and
age-invariant, velocity strictly lower at 24h. -/
theorem C2_score_age_amended_witness :
    velocityN ⟨1, 0, 0, 0, 0⟩ 24 < velocityN ⟨1, 0, 0, 0, 0⟩ 0
      ∧ computeScoresForPost ⟨1, 0, 0, 0, 0⟩ 0
          = some (viralityN ⟨1, 0, 0, 0, 0⟩, velocityN ⟨1, 0, 0, 0, 0⟩ 0) := by
  have h := C2_score_age_amended ⟨1, 0, 0, 0, 0⟩ 0 24
    (by norm_num) (le_refl 0) (le_refl 0) (le_refl 0) (le_refl 0)
    (le_refl 0) (by norm_num)
  have hlog : 0 < Real.log 2 := Real.log_pos (by norm_num)
  have hb : velocityBase ⟨1, 0, 0, 0, 0⟩ = 0.5 * Real.log 2 := by
    unfold velocityBase
    norm_num [Real.log_one]
  refine ⟨h.2.2.2.2 ?_ ?_, h.1⟩
  · rw [hb]
    linarith
  · rw [hb]
    have hlog2 : Real.log 2 < 0.6931471808 := Real.log_two_lt_d9
    norm_num
    linarith

/-- C8 (counterexample): a post with a negative like counter makes
`compute_scores_for_post` raise (`math.log1p` has no clamping: its argument
`-2` is outside the domain and raises `ValueError`), so the score computation
does have a failure mode and degenerate inputs are not clamped to zero. -/
theorem C8_no_raise_cex :
    computeScoresForPost ⟨-2, 0, 0, 0, 0⟩ 0 = none := by
  unfold computeScoresForPost ln1p timeDecay
  rw [if_neg (by norm_num : ¬ (-1 : ℝ) < ((-2 : Int) : ℝ))]

/-- C8 (amended): on non-degenerate inputs — all engagement counters
non-negative and an age keeping the decay denominator nonzero —
`compute_scores_for_post` never raises (it returns a score pair). -/
theorem C8_no_raise_amended (m : Metrics) (age : ℝ)
    (h1 : 0 ≤ m.likeCount) (h2 : 0 ≤ m.repostCount) (h3 : 0 ≤ m.quoteCount)
    (h4 : 0 ≤ m.replyCount) (h5 : 0 ≤ m.viewCount) (hd : 1 + age / 24 ≠ 0) :
    (computeScoresForPost m age).isSome = true := by
  rw [computeScoresForPost_eq m age h1 h2 h3 h4 h5 hd]
  rfl

/-- Witness for C8 (amended) at the all-zero post, age 0. -/
theorem C8_no_raise_amended_witness :
    (computeScoresForPost ⟨0, 0, 0, 0, 0⟩ 0).isSome = true :=
  C8_no_raise_amended ⟨0, 0, 0, 0, 0⟩ 0
    (le_refl 0) (le_refl 0) (le_refl 0) (le_refl 0) (le_refl 0) (by norm_num)

theorem countP_filter_of_imp {α : Type} (p q : α → Bool) (l : List α)
    (h : ∀ a, p a = true → q a = true) :
    (l.filter q).countP p = l.countP p := by
  induction l with
  | nil => rfl
  | cons a t ih =>
    rw [List.filter_cons]
    cases hq : q a with
    | false =>
      have hp : p a = false := by
        cases hp : p a with
        | false => rfl
        | true => rw [h a hp] at hq; cases hq
      simp [List.countP_cons, hp, ih]
    | true => simp [List.countP_cons, ih]

theorem countP_filter_not_split {α : Type} (p q : α → Bool) (l : List α) :
    l.countP p = (l.filter q).countP p + (l.filter (fun a => !q a)).countP p := by
  induction l with
  | nil => rfl
  | cons a t ih =>
    rw [List.filter_cons, List.filter_cons]
    cases hq : q a <;> cases hp : p a <;>
      simp [List.countP_cons, hp, hq, ih] <;> omega

theorem activeLeaseCount_cleanup (configId : Nat) (now : Int) (leases : List Lease) :
    activeLeaseCount configId now (cleanupExpiredLocks configId now leases)
      = activeLeaseCount configId now leases := by
  unfold activeLeaseCount cleanupExpiredLocks
  apply countP_filter_of_imp
  intro a ha
  simp only [Bool.and_eq_true, decide_eq_true_eq] at ha
  have hnot : ¬ a.expiresAt ≤ now := by omega
  simp [ha.1, hnot]

theorem activeLeaseCount_release (configId : Nat) (tok : Nat) (now : Int)
    (leases : List Lease) (lw : Lease)
    (hfil : leases.filter
        (fun l => decide (l.configId = configId) && decide (l.lockToken = tok)) = [lw])
    (hact : now < lw.expiresAt) :
    activeLeaseCount configId now (releaseSchedulerLock configId tok leases)
      = activeLeaseCount configId now leases - 1 := by
  have hmem : lw ∈ leases.filter
      (fun l => decide (l.configId = configId) && decide (l.lockToken = tok)) := by
    rw [hfil]
    exact List.mem_cons_self _ _
  have hprop := (List.mem_filter.mp hmem).2
  simp only [Bool.and_eq_true, decide_eq_true_eq] at hprop
  have hsplit := countP_filter_not_split
    (fun l => decide (l.configId = configId) && decide (now < l.expiresAt))
    (fun l => decide (l.configId = configId) && decide (l.lockToken = tok)) leases
  rw [hfil] at hsplit
  have hone : ([lw].countP
      (fun l => decide (l.configId = configId) && decide (now < l.expiresAt))) = 1 := by
    simp [List.countP_cons, hprop.1, hact]
  rw [hone] at hsplit
  unfold activeLeaseCount releaseSchedulerLock
  omega

theorem acquire_unavailable (cfg : SchedulerConfigRec) (t : Nat) (now : Int)
    (L : List Lease)
    (h : effectiveLimit cfg ≤ activeLeaseCount cfg.id now L) :
    acquireSchedulerLock cfg t now L = (none, cleanupExpiredLocks cfg.id now L) := by
  unfold acquireSchedulerLock
  rw [if_pos (by rw [activeLeaseCount_cleanup]; exact h)]

theorem acquire_available (cfg : SchedulerConfigRec) (t : Nat) (now : Int)
    (L : List Lease)
    (h : ¬ effectiveLimit cfg ≤ activeLeaseCount cfg.id now L) :
    acquireSchedulerLock cfg t now L
      = (some t,
          cleanupExpiredLocks cfg.id now L
            ++ [⟨cfg.id, t, now + (effectiveTimeout cfg : Int)⟩]) := by
  unfold acquireSchedulerLock
  rw [if_neg (by rw [activeLeaseCount_cleanup]; exact h)]

/-- C4: with the spec's field bounds (`concurrency_limit ≥ 1`,
`lock_timeout_seconds ≥ 10`), when the number of unexpired leases of a config
equals its concurrency limit, acquisition purges only and returns unavailable;
after releasing one active lease (its token held by exactly one lease row) the
next acquisition succeeds, the one after that is unavailable again, and the
successful acquisition first purges every expired lease of the config and
inserts a lease expiring at `now + lock_timeout_seconds`. -/
theorem C4_lease_concurrency (cfg : SchedulerConfigRec) (leases : List Lease)
    (now : Int) (t1 t2 t3 : Nat) (lw : Lease)
    (hcl : 1 ≤ cfg.concurrencyLimit) (hto : 10 ≤ cfg.lockTimeoutSeconds)
    (hfull : activeLeaseCount cfg.id now leases = cfg.concurrencyLimit)
    (hfil : leases.filter
        (fun l => decide (l.configId = cfg.id) && decide (l.lockToken = lw.lockToken))
        = [lw])
    (hact : now < lw.expiresAt) :
    (acquireSchedulerLock cfg t1 now leases).1 = none
      ∧ (acquireSchedulerLock cfg t1 now leases).2
          = cleanupExpiredLocks cfg.id now leases
      ∧ (acquireSchedulerLock cfg t2 now
          (releaseSchedulerLock cfg.id lw.lockToken leases)).1 = some t2
      ∧ (acquireSchedulerLock cfg t3 now
          (acquireSchedulerLock cfg t2 now
            (releaseSchedulerLock cfg.id lw.lockToken leases)).2).1 = none
      ∧ (acquireSchedulerLock cfg t2 now
          (releaseSchedulerLock cfg.id lw.lockToken leases)).2
          = cleanupExpiredLocks cfg.id now
              (releaseSchedulerLock cfg.id lw.lockToken leases)
            ++ [⟨cfg.id, t2, now + (cfg.lockTimeoutSeconds : Int)⟩] := by
  have heff : effectiveLimit cfg = cfg.concurrencyLimit := by
    unfold effectiveLimit
    rw [if_neg (by omega)]
    omega
  have htimeout : effectiveTimeout cfg = cfg.lockTimeoutSeconds := by
    unfold effectiveTimeout
    rw [if_neg (by omega)]
    omega
  have hrel : activeLeaseCount cfg.id now (releaseSchedulerLock cfg.id lw.lockToken leases)
      = cfg.concurrencyLimit - 1 := by
    rw [activeLeaseCount_release cfg.id lw.lockToken now leases lw hfil hact, hfull]
  have hcond1 : effectiveLimit cfg ≤ activeLeaseCount cfg.id now leases := by
    rw [hfull, heff]
  have hcond2 : ¬ effectiveLimit cfg
      ≤ activeLeaseCount cfg.id now (releaseSchedulerLock cfg.id lw.lockToken leases) := by
    rw [hrel, heff]
    omega
  have hacq2 : acquireSchedulerLock cfg t2 now
      (releaseSchedulerLock cfg.id lw.lockToken leases)
      = (some t2,
          cleanupExpiredLocks cfg.id now
            (releaseSchedulerLock cfg.id lw.lockToken leases)
          ++ [⟨cfg.id, t2, now + (effectiveTimeout cfg : Int)⟩]) :=
    acquire_available cfg t2 now _ hcond2
  have hcount2 : activeLeaseCount cfg.id now
      ((acquireSchedulerLock cfg t2 now
        (releaseSchedulerLock cfg.id lw.lockToken leases)).2)
      = cfg.concurrencyLimit := by
    rw [hacq2]
    unfold activeLeaseCount
    rw [List.countP_append]
    have hnew : ([(⟨cfg.id, t2, now + (effectiveTimeout cfg : Int)⟩ : Lease)].countP
        (fun l => decide (l.configId = cfg.id) && decide (now < l.expiresAt))) = 1 := by
      have hpos : now < now + (effectiveTimeout cfg : Int) := by
        rw [htimeout]
        omega
      simp [List.countP_cons, hpos]
    rw [hnew]
    have := activeLeaseCount_cleanup cfg.id now
      (releaseSchedulerLock cfg.id lw.lockToken leases)
    unfold activeLeaseCount at this hrel
    omega
  refine ⟨?_, ?_, ?_, ?_, ?_⟩
  · rw [acquire_unavailable cfg t1 now leases hcond1]
  · rw [acquire_unavailable cfg t1 now leases hcond1]
  · rw [hacq2]
  · rw [acquire_unavailable cfg t3 now _ (by rw [hcount2, heff])]
  · rw [hacq2, htimeout]

/-- Witness for C4 at a concrete config with one active lease and limit 1. -/
theorem C4_lease_concurrency_witness :
    (acquireSchedulerLock ⟨1, "ingest_rank", "0 0 1 1 1", true, 1, 60⟩ 7 50 [⟨1, 5, 100⟩]).1
        = none
      ∧ (acquireSchedulerLock ⟨1, "ingest_rank", "0 0 1 1 1", true, 1, 60⟩ 8 50
          (releaseSchedulerLock 1 5 [⟨1, 5, 100⟩])).1 = some 8
      ∧ (acquireSchedulerLock ⟨1, "ingest_rank", "0 0 1 1 1", true, 1, 60⟩ 9 50
          (acquireSchedulerLock ⟨1, "ingest_rank", "0 0 1 1 1", true, 1, 60⟩ 8 50
            (releaseSchedulerLock 1 5 [⟨1, 5, 100⟩])).2).1 = none := by
  have h := C4_lease_concurrency ⟨1, "ingest_rank", "0 0 1 1 1", true, 1, 60⟩
    [⟨1, 5, 100⟩] 50 7 8 9 ⟨1, 5, 100⟩
    (by decide) (by decide) (by decide) (by decide) (by decide)
  exact ⟨h.1, h.2.2.1, h.2.2.2.1⟩

/-- C3: once the lease is acquired, exactly one JobRun row is appended —
status "error" together with the exception's detail iff the handler raised,
"success" otherwise — the lease is released, and the handler's exception is
re-raised after recording; when lease acquisition returns unavailable the run
is skipped: no JobRun row, monitor untouched, nothing re-raised, and no lease
left behind (the lease table is only purged of expired entries). -/
theorem C3_execute_records_once (cfg : SchedulerConfigRec) (token : Nat) (now : Int)
    (handler : Except String Unit) (st : ExecState)
    (hen : cfg.enabled = true) (hkn : jobHandlerIds.contains cfg.jobId = true) :
    ((acquireSchedulerLock cfg token now st.leases).1 = some token →
        (executeConfiguredJob cfg token now handler st).1.jobRuns
            = st.jobRuns
              ++ [⟨cfg.jobId, cfg.id, handlerStatus handler, handlerDetail handler⟩]
          ∧ (handlerStatus handler = "error" ↔ ∃ e, handler = Except.error e)
          ∧ (∀ e, handler = Except.error e → handlerDetail handler = some e)
          ∧ (executeConfiguredJob cfg token now handler st).2 = handlerDetail handler
          ∧ ∀ l ∈ (executeConfiguredJob cfg token now handler st).1.leases,
              ¬ (l.configId = cfg.id ∧ l.lockToken = token))
      ∧ ((acquireSchedulerLock cfg token now st.leases).1 = none →
          (executeConfiguredJob cfg token now handler st).1.jobRuns = st.jobRuns
            ∧ (executeConfiguredJob cfg token now handler st).1.monitor = st.monitor
            ∧ (executeConfiguredJob cfg token now handler st).2 = none
            ∧ (executeConfiguredJob cfg token now handler st).1.leases
                = cleanupExpiredLocks cfg.id now st.leases
            ∧ ∀ l ∈ (executeConfiguredJob cfg token now handler st).1.leases,
                l ∈ st.leases) := by
  by_cases hc : effectiveLimit cfg ≤ activeLeaseCount cfg.id now st.leases
  · have ha := acquire_unavailable cfg token now st.leases hc
    have hexec : executeConfiguredJob cfg token now handler st
        = ({ st with leases := cleanupExpiredLocks cfg.id now st.leases }, none) := by
      unfold executeConfiguredJob
      rw [hen, hkn, ha]
      rfl
    constructor
    · intro hsome
      rw [ha] at hsome
      cases hsome
    · intro _
      rw [hexec]
      refine ⟨rfl, rfl, rfl, rfl, ?_⟩
      intro l hl
      exact List.mem_of_mem_filter hl
  · have ha := acquire_available cfg token now st.leases hc
    have hexec : executeConfiguredJob cfg token now handler st
        = (⟨releaseSchedulerLock cfg.id token
              (cleanupExpiredLocks cfg.id now st.leases
                ++ [⟨cfg.id, token, now + (effectiveTimeout cfg : Int)⟩]),
            st.jobRuns
              ++ [⟨cfg.jobId, cfg.id, handlerStatus handler, handlerDetail handler⟩],
            (trackJobResult st.monitor cfg.jobId (handlerStatus handler) now).1⟩,
          handlerDetail handler) := by
      unfold executeConfiguredJob
      rw [hen, hkn, ha]
      rfl
    constructor
    · intro _
      rw [hexec]
      refine ⟨rfl, ?_, ?_, rfl, ?_⟩
      · cases handler with
        | ok u => simp [handlerStatus]
        | error e => simp [handlerStatus]
      · intro e he
        subst he
        rfl
      · intro l hl
        have hp := (List.mem_filter.mp hl).2
        rintro ⟨h1, h2⟩
        simp [h1, h2] at hp
    · intro hnone
      rw [ha] at hnone
      cases hnone

/-- Witness for C3: a failing handler on an empty store records one error
JobRun with the exception detail and re-raises it. -/
theorem C3_execute_records_once_witness :
    (executeConfiguredJob ⟨1, "ingest_rank", "0 0 1 1 1", true, 1, 60⟩ 7 0
        (Except.error "boom") ⟨[], [], ⟨[], []⟩⟩).1.jobRuns
        = [⟨"ingest_rank", 1, "error", some "boom"⟩]
      ∧ (executeConfiguredJob ⟨1, "ingest_rank", "0 0 1 1 1", true, 1, 60⟩ 7 0
          (Except.error "boom") ⟨[], [], ⟨[], []⟩⟩).2 = some "boom" := by
  have h := (C3_execute_records_once ⟨1, "ingest_rank", "0 0 1 1 1", true, 1, 60⟩ 7 0
      (Except.error "boom") ⟨[], [], ⟨[], []⟩⟩ rfl (by decide)).1 (by decide)
  exact ⟨by simpa using h.1, h.2.2.2.1⟩

theorem getAssoc_set_self {α : Type} (m : List (String × α)) (k : String) (v : α) :
    getAssoc (setAssoc m k v) k = some v := by
  induction m with
  | nil => simp [setAssoc, getAssoc]
  | cons e t ih =>
    by_cases h : e.1 = k
    · simp [setAssoc, getAssoc, h]
    · simp [setAssoc, getAssoc, h, ih]

theorem track_err_blocked (st : FailureMonitorState) (j : String) (t last : Int)
    (m : Nat)
    (hc : getAssoc st.failureCounts j = some m)
    (hl : getAssoc st.lastAlertAt j = some last)
    (hcool : t - last < jobFailureAlertCooldown) :
    trackJobResult st j "error" t
      = (⟨setAssoc st.failureCounts j (m + 1), st.lastAlertAt⟩, false) := by
  unfold trackJobResult
  rw [if_pos rfl, hc]
  simp only [Option.getD_some]
  by_cases h3 : jobFailureThreshold ≤ m + 1
  · rw [if_pos h3, hl]
    dsimp only
    rw [if_neg (by omega)]
  · rw [if_neg h3]

theorem track_err_alert (st : FailureMonitorState) (j : String) (t last : Int)
    (m : Nat)
    (hc : getAssoc st.failureCounts j = some m)
    (hm : jobFailureThreshold ≤ m + 1)
    (hl : getAssoc st.lastAlertAt j = some last)
    (hcool : jobFailureAlertCooldown ≤ t - last) :
    trackJobResult st j "error" t
      = (⟨setAssoc st.failureCounts j (m + 1), setAssoc st.lastAlertAt j t⟩, true) := by
  unfold trackJobResult
  rw [if_pos rfl, hc]
  simp only [Option.getD_some]
  rw [if_pos hm, hl]
  dsimp only
  rw [if_pos hcool]

theorem trackFold_blocked (j : String) (ts : List Int) :
    ∀ (st : FailureMonitorState) (k : Nat) (m : Nat) (last : Int),
      getAssoc st.failureCounts j = some m →
      getAssoc st.lastAlertAt j = some last →
      (∀ t ∈ ts, t - last < jobFailureAlertCooldown) →
      ∃ st2 m2,
        trackFold j (ts.map fun t => ("error", t)) (st, k) = (st2, k)
          ∧ getAssoc st2.failureCounts j = some m2
          ∧ m ≤ m2
          ∧ st2.lastAlertAt = st.lastAlertAt := by
  induction ts with
  | nil =>
    intro st k m last hc hl _
    exact ⟨st, m, rfl, hc, le_refl m, rfl⟩
  | cons t ts ih =>
    intro st k m last hc hl hts
    have hstep := track_err_blocked st j t last m hc hl (hts t (List.mem_cons_self _ _))
    have hunf : trackFold j (((t :: ts).map fun t => ("error", t))) (st, k)
        = trackFold j (ts.map fun t => ("error", t))
            ((trackJobResult st j "error" t).1,
              k + if (trackJobResult st j "error" t).2 then 1 else 0) := rfl
    rw [hunf, hstep]
    obtain ⟨st2, m2, hfold, hc2, hm2, hla2⟩ :=
      ih ⟨setAssoc st.failureCounts j (m + 1), st.lastAlertAt⟩ k (m + 1) last
        (getAssoc_set_self _ _ _) hl
        (fun u hu => hts u (List.mem_cons_of_mem _ hu))
    exact ⟨st2, m2, hfold, hc2, by omega, hla2⟩

/-- C7: from a fresh monitor, over any outcome sequence: a non-error outcome
resets the job's consecutive-failure counter to zero and emits nothing; three
consecutive failures emit exactly one escalation (none before the third) and
record its time; any number of further failures inside the 30-minute cooldown
emit nothing more; and one more failure at or past cooldown expiry emits
exactly one further escalation. -/
theorem C7_failure_monitor (j : String) (t1 t2 t3 t4 : Int) (mids : List Int)
    (hmids : ∀ t ∈ mids, t - t3 < jobFailureAlertCooldown)
    (h4 : jobFailureAlertCooldown ≤ t4 - t3) :
    (∀ (st : FailureMonitorState) (s : String) (t : Int), s ≠ "error" →
        trackJobResult st j s t
          = (⟨setAssoc st.failureCounts j 0, st.lastAlertAt⟩, false)
          ∧ getAssoc (setAssoc st.failureCounts j 0) j = some 0)
      ∧ (runOutcomes j ⟨[], []⟩ [("error", t1), ("error", t2)]).2 = 0
      ∧ (runOutcomes j ⟨[], []⟩ [("error", t1), ("error", t2), ("error", t3)]).2 = 1
      ∧ (runOutcomes j ⟨[], []⟩
          ([("error", t1), ("error", t2), ("error", t3)]
            ++ mids.map fun t => ("error", t))).2 = 1
      ∧ (runOutcomes j ⟨[], []⟩
          (([("error", t1), ("error", t2), ("error", t3)]
            ++ mids.map fun t => ("error", t)) ++ [("error", t4)])).2 = 2 := by
  have step1 : trackJobResult ⟨[], []⟩ j "error" t1 = (⟨[(j, 1)], []⟩, false) := by
    unfold trackJobResult
    rw [if_pos rfl]
    simp [getAssoc, setAssoc, jobFailureThreshold]
  have step2 : trackJobResult ⟨[(j, 1)], []⟩ j "error" t2 = (⟨[(j, 2)], []⟩, false) := by
    unfold trackJobResult
    rw [if_pos rfl]
    simp [getAssoc, setAssoc, jobFailureThreshold]
  have step3 : trackJobResult ⟨[(j, 2)], []⟩ j "error" t3
      = (⟨[(j, 3)], [(j, t3)]⟩, true) := by
    unfold trackJobResult
    rw [if_pos rfl]
    simp [getAssoc, setAssoc, jobFailureThreshold]
  have h2run : runOutcomes j ⟨[], []⟩ [("error", t1), ("error", t2)]
      = (⟨[(j, 2)], []⟩, 0) := by
    unfold runOutcomes trackFold
    simp only [List.foldl_cons, List.foldl_nil]
    rw [step1]
    dsimp only
    rw [step2]
    rfl
  have h3run : runOutcomes j ⟨[], []⟩ [("error", t1), ("error", t2), ("error", t3)]
      = (⟨[(j, 3)], [(j, t3)]⟩, 1) := by
    unfold runOutcomes trackFold
    simp only [List.foldl_cons, List.foldl_nil]
    rw [step1]
    dsimp only
    rw [step2]
    dsimp only
    rw [step3]
    rfl
  obtain ⟨stMid, mMid, hfoldMid, hcMid, hmMid, hlaMid⟩ :=
    trackFold_blocked j mids ⟨[(j, 3)], [(j, t3)]⟩ 1 3 t3
      (by simp [getAssoc]) (by simp [getAssoc]) hmids
  have hmidrun : runOutcomes j ⟨[], []⟩
      ([("error", t1), ("error", t2), ("error", t3)]
        ++ mids.map fun t => ("error", t)) = (stMid, 1) := by
    unfold runOutcomes trackFold
    rw [List.foldl_append]
    have h3fold : List.foldl
        (fun acc ev =>
          ((trackJobResult acc.1 j ev.1 ev.2).1,
            acc.2 + if (trackJobResult acc.1 j ev.1 ev.2).2 then 1 else 0))
        ((⟨[], []⟩ : FailureMonitorState), 0)
        [("error", t1), ("error", t2), ("error", t3)]
        = (⟨[(j, 3)], [(j, t3)]⟩, 1) := h3run
    rw [h3fold]
    exact hfoldMid
  have hlast : getAssoc stMid.lastAlertAt j = some t3 := by
    rw [hlaMid]
    simp [getAssoc]
  have hfinalstep := track_err_alert stMid j t4 t3 mMid hcMid
    (by unfold jobFailureThreshold; omega) hlast h4
  refine ⟨?_, by rw [h2run], by rw [h3run], by rw [hmidrun], ?_⟩
  · intro st s t hs
    constructor
    · unfold trackJobResult
      rw [if_neg hs]
    · exact getAssoc_set_self _ _ _
  · unfold runOutcomes trackFold
    rw [List.foldl_append]
    have hmid2 : List.foldl
        (fun acc ev =>
          ((trackJobResult acc.1 j ev.1 ev.2).1,
            acc.2 + if (trackJobResult acc.1 j ev.1 ev.2).2 then 1 else 0))
        ((⟨[], []⟩ : FailureMonitorState), 0)
        ([("error", t1), ("error", t2), ("error", t3)]
          ++ mids.map fun t => ("error", t)) = (stMid, 1) := hmidrun
    rw [hmid2]
    simp only [List.foldl_cons, List.foldl_nil]
    rw [hfinalstep]
    rfl

/-- Witness for C7 at concrete times: one escalation on the third failure,
none during the cooldown, one more after it expires. -/
theorem C7_failure_monitor_witness :
    (runOutcomes "ingest_rank" ⟨[], []⟩
        [("error", 0), ("error", 10), ("error", 20)]).2 = 1
      ∧ (runOutcomes "ingest_rank" ⟨[], []⟩
          (([("error", 0), ("error", 10), ("error", 20)]
            ++ ([30, 100].map fun t => ("error", t))) ++ [("error", 2000)])).2 = 2 := by
  have h := C7_failure_monitor "ingest_rank" 0 10 20 2000 [30, 100]
    (by decide) (by decide)
  exact ⟨h.2.2.1, h.2.2.2.2⟩

end TrendSpark
